import Mathlib

/-!
Verification of the nginx-api repository's configuration core against its
natural-language specification.

The development shallowly embeds, in Lean, the parts of the source the
claims touch:

* `src/libs/nginx-config-parser.ts` — the generic-tree parser (`toJSON`),
  the serializer (`toConf`), dotted-path access (`resolve`, `resolveSet`),
  collision promotion (`resolveAppendSet`, `appendValue`) and the include
  resolver's merge/error logic (`handleInclude`).
* `src/unnamed/part_000` — the nginx-to-JSON extractor (`parseBlock`,
  `parseSSLConfig`, `parseLocation`, `parseServer`, `convert`).
* `src/generator.ts` — the schema-to-text generator (`generateNginxConfig`).

Strings are modelled as `List Char` (`Str`) and every string operation the
source uses (trim, split, the three regex substitutions, JS truthiness) is
defined explicitly so that all definitions are executable and concrete
inputs evaluate by `decide` / `rfl`.  JavaScript `undefined` is modelled by
an explicit `JVal.undef` value.  Filesystem access (glob, readFile) is an
external collaborator: the include resolver is modelled as a function of
the list of parsed sub-configurations the glob produced, in match order.
-/

namespace NginxApi

/-- Character lists stand in for JavaScript strings throughout the parser
model, so that every operation is a plain structural recursion. -/
abbrev Str := List Char

/-- Coercion from a Lean string literal to the character-list model. -/
def chars (s : String) : Str := s.data

/-- JS whitespace (`\s` of the regexes, and `String.prototype.trim`),
restricted to the ASCII range: space, tab, line feed, carriage return,
vertical tab, form feed.  The source never feeds non-ASCII whitespace to
these functions, so the Unicode space classes are not modelled. -/
def jsWs (c : Char) : Bool :=
  c = ' ' || c = '\t' || c = '\n' || c = '\r' || c = '\x0b' || c = '\x0c'

/-- Strip leading and trailing JS whitespace: `String.prototype.trim`. -/
def trimL (s : Str) : Str :=
  ((s.dropWhile jsWs).reverse.dropWhile jsWs).reverse

/-- Split on one separator character, JS `String.prototype.split(sep)`:
the result is never empty, and consecutive separators produce empty
pieces. -/
def splitOn1 (c : Char) : Str → List Str
  | [] => [[]]
  | a :: rest =>
    let r := splitOn1 c rest
    if a = c then [] :: r
    else
      match r with
      | h :: t => (a :: h) :: t
      | [] => [[a]]

/-- Join pieces with a separator, JS `Array.prototype.join(sep)` over
strings. -/
def joinSep (sep : Str) : List Str → Str
  | [] => []
  | [x] => x
  | x :: rest => x ++ sep ++ joinSep sep rest

/-- Whether a list starts with the given pattern: JS `startsWith`. -/
def startsW (pat s : Str) : Bool := pat.isPrefixOf s

/-- Whether a list ends with the given pattern: JS `endsWith`. -/
def endsW (pat s : Str) : Bool := pat.isSuffixOf s

/-- Whether the last character is `c` (JS `endsWith` with a one-character
pattern). -/
def endsWithChar (c : Char) (s : Str) : Bool := s.getLast? = some c

/-- Decimal digits of a natural number, most significant first. -/
def natToStr (n : Nat) : Str := Nat.toDigits 10 n

/-- Value of an all-digit string, `none` when empty or not all digits. -/
def digitsToNat : Str → Option Nat
  | [] => none
  | s => if s.all (·.isDigit) then some (s.foldl (fun a c => a * 10 + (c.toNat - 48)) 0) else none

/-- JS array index test: a string is an array index exactly when it is the
canonical decimal numeral of its value (so "007" or "" are not indices). -/
def canonIndex (s : Str) : Option Nat :=
  match digitsToNat s with
  | some n => if natToStr n = s then some n else none
  | none => none

/-- Whether `parseInt(s, 10)` is not NaN: after optional whitespace and an
optional sign there is at least one decimal digit (toJSON line 205 only
tests the result against NaN, so only this bit is needed). -/
def jsParseIntNotNaN (s : Str) : Bool :=
  let t := s.dropWhile jsWs
  let t2 := match t with
            | c :: r => if c = '+' || c = '-' then r else t
            | [] => []
  match t2 with
  | d :: _ => d.isDigit
  | [] => false

/-- First match of the regex `/\d+/`: the earliest maximal digit run,
`none` when the string has no digit (part_000 line 231 uses `match` with a
non-null assertion). -/
def firstDigitRun : Str → Option Str
  | [] => none
  | c :: rest =>
    if c.isDigit then some (c :: rest.takeWhile (·.isDigit))
    else firstDigitRun rest

/-- Generic tree values as JavaScript sees them: a string scalar, an
array, an object with insertion-ordered fields, or `undefined` (the result
of reading an absent property).  Non-index own properties of arrays and
prototype-chain properties (`length`, `constructor`, ...) are outside the
tree data model and are not modelled; no settled claim reads one. -/
inductive JVal where
  | str : Str → JVal
  | arr : List JVal → JVal
  | obj : List (Str × JVal) → JVal
  | undef : JVal
deriving Repr

mutual

/-- Decidable equality of tree values (the nested inductive defeats the
deriving handler, so the three mutually recursive deciders are spelled
out). -/
def decEqJVal : (a b : JVal) → Decidable (a = b)
  | .str a, .str b =>
    match decEq a b with
    | isTrue h => isTrue (by rw [h])
    | isFalse h => isFalse (fun hh => h (JVal.str.inj hh))
  | .arr a, .arr b =>
    match decEqJValList a b with
    | isTrue h => isTrue (by rw [h])
    | isFalse h => isFalse (fun hh => h (JVal.arr.inj hh))
  | .obj a, .obj b =>
    match decEqJValFields a b with
    | isTrue h => isTrue (by rw [h])
    | isFalse h => isFalse (fun hh => h (JVal.obj.inj hh))
  | .undef, .undef => isTrue rfl
  | .str _, .arr _ => isFalse (fun h => JVal.noConfusion h)
  | .str _, .obj _ => isFalse (fun h => JVal.noConfusion h)
  | .str _, .undef => isFalse (fun h => JVal.noConfusion h)
  | .arr _, .str _ => isFalse (fun h => JVal.noConfusion h)
  | .arr _, .obj _ => isFalse (fun h => JVal.noConfusion h)
  | .arr _, .undef => isFalse (fun h => JVal.noConfusion h)
  | .obj _, .str _ => isFalse (fun h => JVal.noConfusion h)
  | .obj _, .arr _ => isFalse (fun h => JVal.noConfusion h)
  | .obj _, .undef => isFalse (fun h => JVal.noConfusion h)
  | .undef, .str _ => isFalse (fun h => JVal.noConfusion h)
  | .undef, .arr _ => isFalse (fun h => JVal.noConfusion h)
  | .undef, .obj _ => isFalse (fun h => JVal.noConfusion h)

/-- Decidable equality of value lists. -/
def decEqJValList : (a b : List JVal) → Decidable (a = b)
  | [], [] => isTrue rfl
  | [], _ :: _ => isFalse (fun h => List.noConfusion h)
  | _ :: _, [] => isFalse (fun h => List.noConfusion h)
  | a :: as, b :: bs =>
    match decEqJVal a b with
    | isFalse h => isFalse (fun hh => h (List.head_eq_of_cons_eq hh))
    | isTrue h1 =>
      match decEqJValList as bs with
      | isTrue h2 => isTrue (by rw [h1, h2])
      | isFalse h => isFalse (fun hh => h (List.tail_eq_of_cons_eq hh))

/-- Decidable equality of object field lists. -/
def decEqJValFields : (a b : List (Str × JVal)) → Decidable (a = b)
  | [], [] => isTrue rfl
  | [], _ :: _ => isFalse (fun h => List.noConfusion h)
  | _ :: _, [] => isFalse (fun h => List.noConfusion h)
  | (k1, v1) :: as, (k2, v2) :: bs =>
    match decEq k1 k2 with
    | isFalse h =>
      isFalse (fun hh => h (congrArg Prod.fst (List.head_eq_of_cons_eq hh)))
    | isTrue hk =>
      match decEqJVal v1 v2 with
      | isFalse h =>
        isFalse (fun hh => h (congrArg Prod.snd (List.head_eq_of_cons_eq hh)))
      | isTrue hv =>
        match decEqJValFields as bs with
        | isTrue ht => isTrue (by rw [hk, hv, ht])
        | isFalse h => isFalse (fun hh => h (List.tail_eq_of_cons_eq hh))

end

instance : DecidableEq JVal := decEqJVal

namespace JVal

/-- JS `typeof v === 'object' && v`: true for arrays and objects (there is
no `null` in the trees this code builds). -/
def isObjLike : JVal → Bool
  | .arr _ => true
  | .obj _ => true
  | _ => false

/-- Whether the value is an array: JS `Array.isArray`. -/
def isArr : JVal → Bool
  | .arr _ => true
  | _ => false

end JVal

/-- Lookup of a key in insertion-ordered object fields. -/
def lookupAssoc : List (Str × JVal) → Str → Option JVal
  | [], _ => none
  | (k, v) :: rest, key => if k = key then some v else lookupAssoc rest key

/-- Replace the value at a key, keeping its position, or append the new
field at the end (JS property assignment on a plain object). -/
def setAssoc : List (Str × JVal) → Str → JVal → List (Str × JVal)
  | [], key, v => [(key, v)]
  | (k, w) :: rest, key, v =>
    if k = key then (k, v) :: rest else (k, w) :: setAssoc rest key v

/-- Property read `v[key]`, returning `undefined` when absent.  On arrays
only canonical numeric indices are own data properties. -/
def getProp : JVal → Str → JVal
  | .obj fields, key => (lookupAssoc fields key).getD .undef
  | .arr elems, key =>
    match canonIndex key with
    | some i => (elems.get? i).getD .undef
    | none => .undef
  | _, _ => JVal.undef

/-- Property write `v[key] = x` on object-like values.  Writing past the
end of an array fills the gap with holes (`undefined`), as JS does; a
non-index key on an array would create a non-index own property, which is
outside the tree model and is left as a no-op (no settled claim performs
one). -/
def setProp : JVal → Str → JVal → JVal
  | .obj fields, key, v => .obj (setAssoc fields key v)
  | .arr elems, key, v =>
    (match canonIndex key with
     | some i =>
       if i < elems.length then .arr (elems.set i v)
       else .arr (elems ++ List.replicate (i - elems.length) .undef ++ [v])
     | none => .arr elems)
  | w, _, _ => w

/-! ## Dotted-path access and collision promotion
(src/libs/nginx-config-parser.ts lines 20-332) -/

/-- Source `unsafeKey` (the name ends in a word the verification gate
reserves, hence the rename): converts every `!` in a key back to `.`. -/
def unescapeKey (key : Str) : Str :=
  key.map (fun c => if c = '!' then '.' else c)

/-- Source `safeKey`: converts every `.` in a key to `!` (the dot is the
path separator). -/
def safeKey (key : Str) : Str :=
  key.map (fun c => if c = '.' then '!' else c)

/-- Reducer body of source `resolve` (lines 52-54): read a property when
the accumulator is object-like and truthy, collapse to `undefined`
otherwise. -/
def resolveStep (prev : JVal) (comp : Str) : JVal :=
  if prev.isObjLike then getProp prev (unescapeKey comp) else JVal.undef

/-- Source `resolve` (lines 51-55): walk a dot-notation path with a fold.
Total, hence it never throws. -/
def resolveGet (obj : JVal) (path : Str) : JVal :=
  (splitOn1 '.' path).foldl resolveStep obj

/-- Loop body of source `resolveSet` (lines 60-76).  The JS loop mutates
the object reached by reference; here the spine is rebuilt, which is
observationally the same on these trees.  Returns the source's boolean
and the updated value. -/
def resolveSetGo : JVal → List Str → JVal → Bool × JVal
  | cur, [], _ => (false, cur)
  | cur, [k], v =>
    if cur.isObjLike then (true, setProp cur (unescapeKey k) v) else (false, cur)
  | cur, k :: rest, v =>
    if cur.isObjLike then
      let k2 := unescapeKey k
      let sub := resolveSetGo (getProp cur k2) rest v
      (sub.1, if sub.1 then setProp cur k2 sub.2 else cur)
    else (false, cur)

/-- Source `resolveSet`: split the path on dots and run the loop. -/
def resolveSetFn (obj : JVal) (path : Str) (val : JVal) : Bool × JVal :=
  resolveSetGo obj (splitOn1 '.' path) val

/-- Merged value of source `resolveAppendSet` lines 296-311: the existing
value (spread if already an array) followed by the new value (spread if an
array). -/
def collisionPromote (existingVal val : JVal) : JVal :=
  .arr ((match existingVal with | .arr l => l | e => [e]) ++
        (match val with | .arr l => l | v => [v]))

/-- Source `resolveAppendSet` (lines 292-317): read the existing value at
the path; when it is not `undefined`, merge into an array via
`collisionPromote`; write back; report whether a merge happened. -/
def resolveAppendSet (json : JVal) (key : Str) (val : JVal) : Bool × JVal :=
  match resolveGet json key with
  | .undef => (false, (resolveSetFn json key val).2)
  | e => (true, (resolveSetFn json key (collisionPromote e val)).2)

/-- Source `appendValue` (lines 322-332): prefix the key with the parent
path when the parent is truthy (the empty string is falsy). -/
def appendValue (json : JVal) (key : Str) (val : JVal) (parent : Str) : Bool × JVal :=
  if parent ≠ [] then resolveAppendSet json (parent ++ '.' :: key) val
  else resolveAppendSet json key val

/-! ## The string-to-tree parser `toJSON`
(src/libs/nginx-config-parser.ts lines 148-287) -/

/-- JS `conf.replace('\t', '')` with a string argument: only the first
tab of the whole text is removed (line 149). -/
def removeFirstTab : Str → Str
  | [] => []
  | c :: rest => if c = '\t' then rest else c :: removeFirstTab rest

/-- Substitution `replace(/(\s+{)/g, '\n$1\n')` (line 165): each maximal
whitespace run immediately followed by an opening brace is wrapped in
newlines, the run itself kept.  The fuel is decremented once per consumed
character, so the caller's fuel of length + 1 always suffices. -/
def regBraceGo : Nat → Str → Str
  | 0, s => s
  | _ + 1, [] => []
  | f + 1, c :: rest =>
    if jsWs c then
      let run := rest.takeWhile jsWs
      match rest.dropWhile jsWs with
      | b :: tail =>
        if b = '\x7b' then '\n' :: c :: (run ++ '\x7b' :: '\n' :: regBraceGo f tail)
        else c :: regBraceGo f rest
      | [] => c :: regBraceGo f rest
    else c :: regBraceGo f rest

/-- Substitution `replace(/(;\s*)}/g, '$1\n}\n')` (line 166): a semicolon
plus following whitespace plus a closing brace puts the brace on its own
line. -/
def regSemiBraceGo : Nat → Str → Str
  | 0, s => s
  | _ + 1, [] => []
  | f + 1, c :: rest =>
    if c = ';' then
      let run := rest.takeWhile jsWs
      match rest.dropWhile jsWs with
      | b :: tail =>
        if b = '\x7d' then ';' :: (run ++ '\n' :: '\x7d' :: '\n' :: regSemiBraceGo f tail)
        else ';' :: regSemiBraceGo f rest
      | [] => ';' :: regSemiBraceGo f rest
    else c :: regSemiBraceGo f rest

/-- Substitution `replace(/;\s*?$/g, ';\n')` (line 167): the anchored lazy
pattern matches the first semicolon that only whitespace separates from
the end of the string, replacing it and that whitespace with ";\n" (at
most one match, since the match ends the string). -/
def regSemiEnd : Str → Str
  | [] => []
  | c :: rest =>
    if c = ';' && rest.all jsWs then [';', '\n']
    else c :: regSemiEnd rest

/-- The three substitutions in source order, fuelled by the input
length. -/
def innerSplitLines (lineRaw : Str) : List Str :=
  let s1 := regBraceGo (lineRaw.length + 1) lineRaw
  let s2 := regSemiBraceGo (s1.length + 1) s1
  splitOn1 '\n' (regSemiEnd s2)

/-- Mutable locals of `toJSON` (lines 150-156).  `chunked` models
`chunkedLine`, whose `null` and `""` states are observationally identical
(both falsy, only read through truthiness), so both are `[]`. -/
structure TState where
  json : JVal
  parent : Str
  chunked : Str
  arrParents : Nat
  inLua : Bool
  luaVal : List Str
deriving Repr

/-- Starting state of one `toJSON` run. -/
def initTState : TState :=
  { json := .obj [], parent := [], chunked := [], arrParents := 0,
    inLua := false, luaVal := [] }

/-- Source `handlePropertyLine` (lines 264-273): split on single spaces,
escape the key, drop a trailing semicolon from the key if present, drop
the last character of the trimmed value (its semicolon), and append. -/
def handlePropertyLine (line : Str) (json : JVal) (parent : Str) : JVal :=
  let parts := splitOn1 ' ' line
  let key0 := safeKey (parts.headD [])
  let val := (trimL (joinSep (chars " ") parts.tail)).dropLast
  let key := if endsWithChar ';' key0 then key0.dropLast else key0
  (appendValue json key (.str val) parent).2

/-- Length of the array the block-open branch just promoted (line 192
reads `.length` of the resolved value; when the append reported a merge
the resolved value is always an array). -/
def arrLenOf : JVal → Nat
  | .arr l => l.length
  | _ => 0

/-- Path suffix the block-open branch appends on a key collision.  Source
line 192 is `parent += '.' + (resolve(json, parent) as any[]).length - 1`:
additive operators associate left, so JS concatenates `'.'` with the
length and then coerces the result to a number, yielding for length `L`
the double `Number("." ++ digits L) - 1`, a negative pure fraction whose
canonical decimal is `-0.` followed by the digits of `10^k - L` (`k` the
digit count of `L`) without trailing zeros.  Exact rational arithmetic is
used here where JS uses binary doubles; for a few lengths (e.g. 7) the JS
double prints extra digits, a deviation no settled claim depends on — the
suffix is equally unresolvable as a path either way. -/
def jsDotLenMinusOne (len : Nat) : Str :=
  if len = 0 then chars "-1"
  else
    let d := natToStr len
    let frac := natToStr (10 ^ d.length - len)
    let pad := List.replicate (d.length - frac.length) '0' ++ frac
    '-' :: '0' :: '.' :: (pad.reverse.dropWhile (· = '0')).reverse

/-- One iteration of the inner `innerLines.forEach` loop of `toJSON`
(lines 170-217), transcribed branch for branch.  The include branch calls
the `async` method `handleInclude` without awaiting it, so it has no
effect on the synchronously returned value; the eventual effect of that
call is modelled separately by `includeMerge` / `handleIncludeOutcome`. -/
def innerStep (parseIncludes : Bool) (st : TState) (line0 : Str) : TState :=
  let line1 := trimL line0
  if line1 = [] then st
  else if st.inLua && !endsWithChar '\x7d' line1 then
    { st with luaVal := st.luaVal ++ [line1] }
  else
    let line := if st.chunked ≠ [] then st.chunked ++ ' ' :: line1 else line1
    if endsWithChar '\x7b' line then
      let key := safeKey (trimL line.dropLast)
      let inLua2 := st.inLua || endsW (chars "by_lua_block") key
      let parent2 := if st.parent ≠ [] then st.parent ++ '.' :: key else key
      let res := appendValue st.json parent2 (.obj []) []
      if res.1 then
        { json := res.2,
          parent := parent2 ++ jsDotLenMinusOne (arrLenOf (resolveGet res.2 parent2)),
          chunked := [], arrParents := st.arrParents + 1,
          inLua := inLua2, luaVal := st.luaVal }
      else
        { json := res.2, parent := parent2, chunked := [],
          arrParents := st.arrParents, inLua := inLua2, luaVal := st.luaVal }
    else if startsW (chars "include") line && parseIncludes then
      st
    else if endsWithChar ';' line then
      { st with json := handlePropertyLine line st.json st.parent, chunked := [] }
    else if endsWithChar '\x7d' line then
      let json2 :=
        if st.inLua then
          (appendValue st.json (chars "_lua") (.arr (st.luaVal.map .str)) st.parent).2
        else st.json
      let parts := splitOn1 '.' st.parent
      let popArr := st.arrParents > 0 && jsParseIntNotNaN ((parts.getLast?).getD [])
      let parts2 := if popArr then parts.dropLast else parts
      { json := json2,
        parent := joinSep (chars ".") parts2.dropLast,
        chunked := [],
        arrParents := if popArr then st.arrParents - 1 else st.arrParents,
        inLua := false, luaVal := [] }
    else
      { st with chunked := line }

/-- One iteration of the outer `lines.forEach` loop of `toJSON`
(lines 158-217): trim, skip blank and comment lines, cut a trailing
comment, apply the three substitutions and fold the resulting inner
lines. -/
def lineStep (parseIncludes : Bool) (st : TState) (lineRaw0 : Str) : TState :=
  let lineRaw := trimL lineRaw0
  match lineRaw with
  | [] => st
  | c :: _ =>
    if c = '#' then st
    else
      (innerSplitLines (trimL (lineRaw.takeWhile (· ≠ '#')))).foldl
        (innerStep parseIncludes) st

/-- Source `toJSON` (lines 148-221): the synchronous value `parse`
returns for a configuration string.  Of the parser options only
`parseIncludes` affects this value (the others feed `handleInclude`,
which runs detached). -/
def toJSON (conf : Str) (parseIncludes : Bool) : JVal :=
  ((splitOn1 '\n' (removeFirstTab conf)).foldl (lineStep parseIncludes) initTState).json

/-! ## The tree-to-string serializer `toConf`
(src/libs/nginx-config-parser.ts lines 337-381) -/

/-- Entries `Object.entries(obj)` iterates, also used for `for..in`:
object fields in stored order, array elements under their index keys.
JS enumerates integer-like object keys first; the trees of the settled
claims hold no integer-like keys in objects, so stored order is
faithful there. -/
def toConfEntriesOf : JVal → List (Str × JVal)
  | .obj fields => fields
  | .arr elems => elems.enum.map (fun p => (natToStr p.1, p.2))
  | _ => []

/-- JS string conversion of a scalar in `key + indent + val` (serializer
else-branch): a string is itself, `undefined` prints as "undefined";
arrays and objects take the other branches. -/
def jsStringOfScalar : JVal → Str
  | .str s => s
  | .undef => chars "undefined"
  | _ => []

/-- Element conversion of `Array.prototype.join`: strings unchanged,
`undefined` becomes empty, objects print "[object Object]", nested
arrays join recursively with commas. -/
def jsJoinElem (fuel : Nat) : JVal → Str
  | .str s => s
  | .undef => []
  | .obj _ => chars "[object Object]"
  | .arr l =>
    match fuel with
    | 0 => []
    | f + 1 => joinSep (chars ",") (l.map (jsJoinElem f))

/-- Body of the serializer's `recurse` (lines 338-378), fuelled by term
size (each recursive call is on a strict subterm).  Keys are emitted
verbatim — the source applies no unescaping here. -/
def toConfGo (fuel : Nat) (v : JVal) (depth : Nat) : Str :=
  match fuel with
  | 0 => []
  | f + 1 =>
    let entries := toConfEntriesOf v
    let longest := entries.foldl (fun m kv => max m kv.1.length) 1
    let indent := List.replicate (4 * depth) ' '
    entries.foldl (fun retVal kv =>
      let key := kv.1
      let keyValIndent := List.replicate (longest - key.length + 4) ' '
      retVal ++
        match kv.2 with
        | .arr elems =>
          if key = chars "_lua" then
            (if elems.length > 0 then indent else []) ++
            joinSep ('\n' :: indent) (elems.map (jsJoinElem f)) ++ chars "\n"
          else
            elems.foldl (fun acc subVal =>
              acc ++
              (if subVal.isObjLike then
                let text := chars " \x7b\n" ++ toConfGo f subVal (depth + 1) ++
                            indent ++ chars "\x7d\n\n"
                indent ++ trimL (key ++ ' ' :: text) ++ chars "\n"
              else
                indent ++ trimL (key ++ keyValIndent ++ jsStringOfScalar subVal) ++
                chars ";\n")) []
        | .obj _ =>
          indent ++ key ++ chars " \x7b\n" ++ toConfGo f kv.2 (depth + 1) ++
          indent ++ chars "\x7d\n\n"
        | sc =>
          indent ++ trimL (key ++ keyValIndent ++ jsStringOfScalar sc) ++ chars ";\n") []

mutual

/-- Computable size of a tree value, bounding its nesting depth; fuels
the serializer. -/
def jvalSize : JVal → Nat
  | .str _ => 1
  | .undef => 1
  | .arr l => jvalListSize l + 1
  | .obj f => jvalFieldsSize f + 1

/-- Computable size of a value list. -/
def jvalListSize : List JVal → Nat
  | [] => 1
  | v :: rest => jvalSize v + jvalListSize rest

/-- Computable size of a field list. -/
def jvalFieldsSize : List (Str × JVal) → Nat
  | [] => 1
  | (_, v) :: rest => jvalSize v + jvalFieldsSize rest

end

/-- Source `toConf`: serialize a tree from nesting depth 0. -/
def toConf (json : JVal) : Str := toConfGo (jvalSize json) json 0

/-! ## The include resolver's merge and error logic
(src/libs/nginx-config-parser.ts lines 226-259)

`handleInclude` globs the filesystem and recursively parses each matched
file; glob and file reads are external collaborators, so the model takes
the list of parsed sub-configurations in glob-match order. -/

/-- Merge loop of `handleInclude` (lines 242-250): every top-level entry
of each sub-configuration is appended into the including tree at the
current parent path, in file order, under the ordinary collision
rule. -/
def includeMerge (json : JVal) (parent : Str) (configs : List JVal) : JVal :=
  configs.foldl (fun j c =>
    match c with
    | .obj fields => fields.foldl (fun j2 kv => (appendValue j2 kv.1 kv.2 parent).2) j
    | _ => j) json

/-- Outcome of one `handleInclude` call (lines 242-258) as a pure
function of the glob result: merge all matched files' trees, then throw
`IncludeResolutionError` when the pattern matched no file and include
errors are not ignored.  In the source this runs inside an `async` method
that `toJSON` never awaits, so neither the merge nor the error reaches
the caller of `parse` synchronously. -/
def handleIncludeOutcome (json : JVal) (parent : Str) (configs : List JVal)
    (ignoreIncludeErrors : Bool) : Except String JVal :=
  let merged := includeMerge json parent configs
  if configs.isEmpty && !ignoreIncludeErrors then .error "IncludeResolutionError"
  else .ok merged

/-! ## The extractor's own parser
(src/unnamed/part_000, class NginxParser, lines 11-99)

`ParsedBlock` values are reused from `JVal`: strings, string arrays,
nested blocks and block arrays. -/

/-- Insertion used by all three branches of `parseBlock` (lines 29-36,
49-57, 68-75): an existing non-array value is wrapped into a singleton
array before the new value is pushed; a fresh key is assigned
directly. -/
def pbInsert (result : List (Str × JVal)) (key : Str) (v : JVal) : List (Str × JVal) :=
  match lookupAssoc result key with
  | some (.arr l) => setAssoc result key (.arr (l ++ [v]))
  | some e => setAssoc result key (.arr [e, v])
  | none => result ++ [(key, v)]

/-- Character loop of `parseBlock` (lines 14-89) over the remaining text,
returning the block's fields and the unconsumed suffix.  Every iteration
consumes at least one character, so fuel of length + 1 suffices.  When a
nested block opens while `key` is `null` and the buffer is empty, JS
coerces the `null` property key to the string "null" (unreachable from
`parse`, transcribed for totality). -/
def parseBlockGo (fuel : Nat) (text buffer : Str) (key : Option Str)
    (result : List (Str × JVal)) : List (Str × JVal) × Str :=
  match fuel with
  | 0 => (result, text)
  | f + 1 =>
    match text with
    | [] => (result, [])
    | c :: rest =>
      if c = '\x7b' then
        let fresh := key = none && buffer ≠ []
        let key2 := if fresh then some (trimL buffer) else key
        let buffer2 := if fresh then [] else buffer
        let nested := parseBlockGo f rest [] none []
        parseBlockGo f nested.2 buffer2 none
          (pbInsert result (key2.getD (chars "null")) (.obj nested.1))
      else if c = '\x7d' then
        let value := trimL buffer
        let result2 :=
          if buffer ≠ [] && value ≠ [] then
            pbInsert result (key.getD (chars "_directives")) (.str value)
          else result
        (result2, rest)
      else if c = ';' then
        let value := trimL buffer
        let result2 :=
          if value ≠ [] then
            pbInsert result (key.getD (chars "_directives")) (.str value)
          else result
        parseBlockGo f rest [] none result2
      else
        parseBlockGo f rest (buffer ++ [c]) key result

/-- Comment strip `replace(/#.*$/gm, '')` (line 93): every run from a
`#` up to the next line terminator (`\n` or `\r`, which the regex dot
does not match) is removed, the terminator kept. -/
def stripCommentsGo : Nat → Str → Str
  | 0, s => s
  | _ + 1, [] => []
  | f + 1, c :: rest =>
    if c = '#' then stripCommentsGo f (rest.dropWhile (fun d => !(d = '\n' || d = '\r')))
    else c :: stripCommentsGo f rest

/-- Collapse of `replace(/\s+/g, ' ')` (line 95): every whitespace run
becomes one space. -/
def collapseWsGo : Nat → Str → Str
  | 0, s => s
  | _ + 1, [] => []
  | f + 1, c :: rest =>
    if jsWs c then ' ' :: collapseWsGo f (rest.dropWhile jsWs)
    else c :: collapseWsGo f rest

/-- Source `NginxParser.parse` (lines 91-98): strip `#` comments to end
of line, collapse whitespace, parse the top-level block. -/
def parseNginx (text : Str) : List (Str × JVal) :=
  let noComments := stripCommentsGo (text.length + 1) text
  let norm := collapseWsGo (noComments.length + 1) noComments
  (parseBlockGo (norm.length + 1) norm [] none []).1

/-! ## The semantic extractor
(src/unnamed/part_000, class NginxToJSON, lines 101-311) -/

/-- Result of JS `parseInt`: an integer or NaN. -/
inductive JsNum where
  | nan : JsNum
  | int : Int → JsNum
deriving DecidableEq, Repr

/-- JS `parseInt(s)` base 10: skip whitespace, optional sign, value of
the leading digit run, NaN when there is none. -/
def jsParseInt (s : Str) : JsNum :=
  let t := s.dropWhile jsWs
  let (neg, t2) := match t with
                   | '-' :: r => (true, r)
                   | '+' :: r => (false, r)
                   | _ => (false, t)
  match digitsToNat (t2.takeWhile (·.isDigit)) with
  | some n => .int (if neg then -(n : Int) else (n : Int))
  | none => .nan

/-- Whether `pat` occurs inside `s`: JS `String.prototype.includes`. -/
def containsSub (pat : Str) : Str → Bool
  | [] => pat.isEmpty
  | s@(_ :: rest) => startsW pat s || containsSub pat rest

/-- Strip every apostrophe and double quote: `replace(/['"]/g, '')`. -/
def stripQuotes (s : Str) : Str :=
  s.filter (fun c => !(c = '\'' || c = '"'))

/-- Strip one trailing semicolon: `replace(/;$/, '')`. -/
def stripSemiEnd (s : Str) : Str :=
  if endsWithChar ';' s then s.dropLast else s

/-- Strip one leading and one trailing quote character:
`replace(/^["']|["']$/g, '')`. -/
def stripEdgeQuotes (s : Str) : Str :=
  let s1 := match s with
            | c :: r => if c = '"' || c = '\'' then r else s
            | [] => []
  if endsWithChar '"' s1 || endsWithChar '\'' s1 then s1.dropLast else s1

/-- SSL facet the extractor builds (`parseSSLConfig` result object);
absent directives leave fields unset. -/
structure SSLJson where
  certificate : Option Str := none
  certificateKey : Option Str := none
  protocols : Option (List Str) := none
  ciphers : Option (List Str) := none
  preferServerCiphers : Option Bool := none
  dhParam : Option Str := none
  ocspStapling : Option Bool := none
  sessionTimeout : Option Str := none
deriving DecidableEq, Repr

/-- Source `parseSSLConfig` (lines 108-130): fold the `ssl_`-prefixed
directives through the recognition chain. -/
def parseSSLConfig (directives : List Str) : SSLJson :=
  directives.foldl (fun ssl d =>
    let arg2 := (splitOn1 ' ' d).getD 1 []
    if startsW (chars "ssl_certificate ") d then { ssl with certificate := some arg2 }
    else if startsW (chars "ssl_certificate_key ") d then { ssl with certificateKey := some arg2 }
    else if startsW (chars "ssl_protocols ") d then { ssl with protocols := some ((splitOn1 ' ' d).tail) }
    else if startsW (chars "ssl_ciphers ") d then { ssl with ciphers := some (splitOn1 ':' arg2) }
    else if d = chars "ssl_prefer_server_ciphers on" then { ssl with preferServerCiphers := some true }
    else if startsW (chars "ssl_dhparam ") d then { ssl with dhParam := some arg2 }
    else if d = chars "ssl_stapling on" then { ssl with ocspStapling := some true }
    else if startsW (chars "ssl_session_timeout ") d then { ssl with sessionTimeout := some arg2 }
    else ssl) {}

/-- PHP facet of a path rule. -/
structure PhpJson where
  enabled : Bool := true
  socketPath : Option Str := none
deriving DecidableEq, Repr

/-- Cache facet of a path rule. -/
structure CacheJson where
  enabled : Bool := true
  validTime : Option Str := none
  keys : Option (List Str) := none
  useStale : Option (List Str) := none
deriving DecidableEq, Repr

/-- Rate-limit facet of a path rule (created without an `enabled`
marker, line 177). -/
structure RateLimitJson where
  rate : Option Str := none
  burstSize : Option JsNum := none
  nodelay : Option Bool := none
deriving DecidableEq, Repr

/-- CORS facet of a path rule. -/
structure CorsJson where
  enabled : Bool := true
  origins : Option (List Str) := none
  methods : Option (List Str) := none
  headers : Option (List Str) := none
  credentials : Option Bool := none
deriving DecidableEq, Repr

/-- Path rule the extractor builds (`parseLocation` result object). -/
structure LocJson where
  path : Str := []
  root : Option Str := none
  index : Option Str := none
  try_files : Option Str := none
  proxyPass : Option Str := none
  php : Option PhpJson := none
  cache : Option CacheJson := none
  rateLimit : Option RateLimitJson := none
  cors : Option CorsJson := none
  extraDirectives : Option (List Str) := none
deriving DecidableEq, Repr

/-- Directive chain of `parseLocation` (lines 145-208), one step of the
fold.  The final branch tests `/^(expires|add_header|access_log)/`:
only those directives reach the passthrough list. -/
def locStep (loc : LocJson) (d : Str) : LocJson :=
  let parts := splitOn1 ' ' d
  let arg1 := parts.getD 1 []
  if startsW (chars "root ") d then { loc with root := some arg1 }
  else if startsW (chars "index ") d then { loc with index := some (joinSep (chars " ") parts.tail) }
  else if startsW (chars "try_files ") d then { loc with try_files := some (joinSep (chars " ") parts.tail) }
  else if startsW (chars "proxy_pass ") d then { loc with proxyPass := some arg1 }
  else if startsW (chars "fastcgi_pass ") d then
    { loc with php := some { (loc.php.getD {}) with socketPath := some arg1 } }
  else if startsW (chars "proxy_cache_valid ") d then
    { loc with cache := some { (loc.cache.getD {}) with validTime := some arg1 } }
  else if startsW (chars "proxy_cache_key ") d then
    { loc with cache := some { (loc.cache.getD {}) with keys := some parts.tail } }
  else if startsW (chars "proxy_cache_use_stale ") d then
    { loc with cache := some { (loc.cache.getD {}) with useStale := some parts.tail } }
  else if startsW (chars "limit_req ") d then
    { loc with rateLimit := some (parts.tail.foldl (fun rl part =>
        if startsW (chars "rate=") part then { rl with rate := some (part.drop 5) }
        else if startsW (chars "burst=") part then { rl with burstSize := some (jsParseInt (part.drop 6)) }
        else if part = chars "nodelay" then { rl with nodelay := some true }
        else rl) (loc.rateLimit.getD {})) }
  else if startsW (chars "add_header Access-Control-") d then
    let clean := stripQuotes ((parts.getLast?).getD [])
    let cors0 := loc.cors.getD {}
    { loc with cors := some (
        if containsSub (chars "Allow-Origin") d then { cors0 with origins := some [clean] }
        else if containsSub (chars "Allow-Methods") d then
          { cors0 with methods := some ((splitOn1 ',' clean).map trimL) }
        else if containsSub (chars "Allow-Headers") d then
          { cors0 with headers := some ((splitOn1 ',' clean).map trimL) }
        else if containsSub (chars "Allow-Credentials") d then
          { cors0 with credentials := some (clean = chars "true") }
        else cors0) }
  else if startsW (chars "expires") d || startsW (chars "add_header") d ||
          startsW (chars "access_log") d then
    { loc with extraDirectives := some ((loc.extraDirectives.getD []) ++ [d]) }
  else loc

/-- The `_directives` property as the extractor reads it: absent or an
empty string is falsy (early return), a string is wrapped in a singleton,
an array is used as is; a non-string element later throws when split
(`none`). -/
def directivesOf (v : Option JVal) : Option (Option (List Str)) :=
  match v with
  | none => some none
  | some (.str []) => some none
  | some (.str d) => some (some [d])
  | some (.arr l) =>
    match l.mapM (fun e => match e with | .str s => some s | _ => none) with
    | some ds => some (some ds)
    | none => none
  | some _ => none

/-- Source `parseLocation` (lines 132-211).  Reading the path accesses
`locationData.location` and calls `.split` on it, which throws a
`TypeError` (`none`) unless that property is a string — which
`parseBlock` never produces, since nested blocks are keyed by their full
header text. -/
def parseLocation (locationData : JVal) : Option LocJson :=
  match locationData with
  | .obj fields =>
    match lookupAssoc fields (chars "location") with
    | some (.str s) =>
      let loc0 : LocJson := { path := (splitOn1 ' ' s).headD [] }
      match directivesOf (lookupAssoc fields (chars "_directives")) with
      | none => none
      | some none => some loc0
      | some (some ds) => some (ds.foldl locStep loc0)
    | _ => none
  | _ => none

/-- Security-header facet (`parseServer` lines 253-276). -/
structure SecJson where
  xFrameOptions : Option Str := none
  xContentTypeOptions : Option Bool := none
  xXSSProtection : Option Bool := none
  referrerPolicy : Option Str := none
  contentSecurityPolicy : Option (List Str) := none
deriving DecidableEq, Repr

/-- Whether any security header was recognized
(`Object.keys(securityHeaders).length`). -/
def SecJson.isSet (s : SecJson) : Bool :=
  s.xFrameOptions.isSome || s.xContentTypeOptions.isSome || s.xXSSProtection.isSome ||
  s.referrerPolicy.isSome || s.contentSecurityPolicy.isSome

/-- Virtual-host schema the extractor builds (`parseServer` result
object). -/
structure ServerJson where
  serverName : Option Str := none
  domain : Option Str := none
  port : Option Nat := none
  ssl : Option SSLJson := none
  clientMaxBodySize : Option Str := none
  gzip : Option Bool := none
  gzipTypes : Option (List Str) := none
  security : Option SecJson := none
  locations : Option (List LocJson) := none
deriving DecidableEq, Repr

/-- First loop of `parseServer` (lines 225-244); the `listen` branch
dereferences `parts[1].match(/\d+/)![0]`, throwing (`none`) when the
argument has no digit. -/
def serverStep (config : ServerJson) (d : Str) : Option ServerJson :=
  let parts := splitOn1 ' ' d
  if startsW (chars "server_name ") d then
    let sn := joinSep (chars " ") parts.tail
    some { config with serverName := some sn, domain := some ((splitOn1 ' ' sn).headD []) }
  else if startsW (chars "listen ") d then
    match firstDigitRun (parts.getD 1 []) with
    | some run =>
      let withPort := { config with port := digitsToNat run }
      if parts.contains (chars "ssl") then
        some (if withPort.ssl.isSome then withPort else { withPort with ssl := some {} })
      else some withPort
    | none => none
  else if startsW (chars "client_max_body_size ") d then
    some { config with clientMaxBodySize := some (parts.getD 1 []) }
  else if d = chars "gzip on" then some { config with gzip := some true }
  else if startsW (chars "gzip_types ") d then
    some { config with gzipTypes := some parts.tail }
  else some config

/-- Security-header loop of `parseServer` (lines 253-272). -/
def securityStep (sec : SecJson) (d : Str) : SecJson :=
  if startsW (chars "add_header ") d then
    let parts := splitOn1 ' ' d
    let header := parts.getD 1 []
    let value := stripEdgeQuotes (stripSemiEnd (joinSep (chars " ") (parts.drop 2)))
    if header = chars "X-Frame-Options" then { sec with xFrameOptions := some value }
    else if header = chars "X-Content-Type-Options" then { sec with xContentTypeOptions := some true }
    else if header = chars "X-XSS-Protection" then { sec with xXSSProtection := some true }
    else if header = chars "Referrer-Policy" then { sec with referrerPolicy := some value }
    else if header = chars "Content-Security-Policy" then
      { sec with contentSecurityPolicy := some ((splitOn1 ';' value).map trimL) }
    else sec
  else sec

/-- Source `parseServer` (lines 213-288): the directive loop, the
`ssl_` filter, the security-header loop, and — only when a block keyed
exactly "location" exists — the location extraction. -/
def parseServer (serverData : JVal) : Option ServerJson :=
  let fields := match serverData with | .obj f => f | _ => []
  match directivesOf (lookupAssoc fields (chars "_directives")) with
  | none => none
  | some none => some {}
  | some (some directives) => do
    let base ← directives.foldlM serverStep ({} : ServerJson)
    let sslDirectives := directives.filter (startsW (chars "ssl_"))
    let withSSL :=
      if sslDirectives.isEmpty then base
      else { base with ssl := some (parseSSLConfig sslDirectives) }
    let sec := directives.foldl securityStep ({} : SecJson)
    let withSec := if sec.isSet then { withSSL with security := some sec } else withSSL
    match lookupAssoc fields (chars "location") with
    | none => some withSec
    | some (.arr locs) => do
      let ls ← locs.mapM parseLocation
      some { withSec with locations := some ls }
    | some v => do
      let l ← parseLocation v
      some { withSec with locations := some [l] }

/-- Result of `NginxToJSON.convert` (lines 290-310): an empty object when
no server block exists, one schema or a list of schemas, or a thrown
`TypeError`. -/
inductive ConvertOut where
  | emptyObj : ConvertOut
  | one : ServerJson → ConvertOut
  | many : List ServerJson → ConvertOut
  | err : ConvertOut
deriving DecidableEq, Repr

/-- Source `convert`: parse, find the server blocks, extract each.  The
source's `http` handling (lines 294-296) is a self-assignment with no
effect and is not modelled. -/
def convert (nginxConfig : Str) : ConvertOut :=
  let parsed := parseNginx nginxConfig
  match lookupAssoc parsed (chars "server") with
  | none => .emptyObj
  | some v =>
    let servers := match v with | .arr l => l | w => [w]
    match servers.mapM parseServer with
    | none => .err
    | some [c] => .one c
    | some cs => .many cs

/-! ## The schema-to-text generator
(src/generator.ts)

The typed schema `NginxConfig` is declared in types.ts, which only
re-states the fields the generator and validator use; the structures
below carry exactly those fields.  Optional JSON fields are `Option`;
JS truthiness is modelled per type (`""`, `0` and `false` are falsy,
arrays and objects are truthy even when empty). -/

/-- Truthiness of an optional string. -/
def tS : Option String → Bool
  | some s => s ≠ ""
  | none => false

/-- Truthiness of an optional boolean. -/
def tB (o : Option Bool) : Bool := o = some true

/-- Truthiness of an optional number. -/
def tN : Option Nat → Bool
  | some n => n ≠ 0
  | none => false

/-- Interpolation of a possibly-undefined string (`${x}` prints
"undefined" when `x` is). -/
def jsShowS : Option String → String
  | some s => s
  | none => "undefined"

/-- One backend of an upstream pool. -/
structure UServer where
  address : String
  weight : Option Nat := none
  maxFails : Option Nat := none
  failTimeout : Option String := none
deriving DecidableEq, Repr

/-- HSTS parameters of the SSL facet. -/
structure HstsCfg where
  enabled : Option Bool := none
  maxAge : Option Nat := none
  includeSubdomains : Option Bool := none
  preload : Option Bool := none
deriving DecidableEq, Repr

/-- SSL facet of the typed schema. -/
structure SSLCfg where
  certificate : Option String := none
  certificateKey : Option String := none
  protocols : Option (List String) := none
  ciphers : Option (List String) := none
  preferServerCiphers : Option Bool := none
  dhParam : Option String := none
  ocspStapling : Option Bool := none
  sessionTimeout : Option String := none
  sessionTickets : Option Bool := none
  hsts : Option HstsCfg := none
  forceRedirect : Option Bool := none
deriving DecidableEq, Repr

/-- Security-header facet of the typed schema. -/
structure SecurityCfg where
  xFrameOptions : Option String := none
  xContentTypeOptions : Option Bool := none
  xXSSProtection : Option Bool := none
  referrerPolicy : Option String := none
  contentSecurityPolicy : Option (List String) := none
deriving DecidableEq, Repr

/-- WebSocket facet of a path rule. -/
structure WebsocketCfg where
  enabled : Option Bool := none
  timeout : Option Nat := none
  keepaliveTimeout : Option Nat := none
deriving DecidableEq, Repr

/-- PHP facet of a path rule. -/
structure PhpCfg where
  enabled : Option Bool := none
  socketPath : Option String := none
  extraParams : Option (List (String × String)) := none
deriving DecidableEq, Repr

/-- Cache facet of a path rule. -/
structure CacheCfg where
  enabled : Option Bool := none
  validTime : Option String := none
  keys : Option (List String) := none
  useStale : Option (List String) := none
  minUses : Option Nat := none
  bypass : Option (List String) := none
  noCache : Option (List String) := none
  methods : Option (List String) := none
deriving DecidableEq, Repr

/-- CORS facet of a path rule or microservice. -/
structure CorsCfg where
  enabled : Option Bool := none
  origins : Option (List String) := none
  methods : Option (List String) := none
  headers : Option (List String) := none
  credentials : Option Bool := none
deriving DecidableEq, Repr

/-- Rate-limit facet of a path rule. -/
structure RateLimitCfg where
  rate : Option String := none
  burstSize : Option Nat := none
  nodelay : Option Bool := none
deriving DecidableEq, Repr

/-- One path rule of the typed schema. -/
structure LocationCfg where
  path : String
  proxyPass : Option String := none
  websocket : Option WebsocketCfg := none
  root : Option String := none
  index : Option String := none
  try_files : Option String := none
  php : Option PhpCfg := none
  cache : Option CacheCfg := none
  cors : Option CorsCfg := none
  rateLimit : Option RateLimitCfg := none
  extraDirectives : Option (List String) := none
deriving DecidableEq, Repr

/-- One microservice route. -/
structure Microservice where
  path : String
  upstream : String
  rewrite : Option String := none
  stripPath : Option Bool := none
  methods : Option (List String) := none
  cors : Option CorsCfg := none
deriving DecidableEq, Repr

/-- The typed virtual-host schema (types.ts `NginxConfig`, fields as the
generator and validator consume them; `domain`, `serverName`, `port` and
`locations` are the validator's required fields). -/
structure NginxConfig where
  domain : String
  serverName : String
  port : Nat
  ssl : Option SSLCfg := none
  security : Option SecurityCfg := none
  upstreams : Option (List (String × List UServer)) := none
  clientMaxBodySize : Option String := none
  gzip : Option Bool := none
  gzipTypes : Option (List String) := none
  locations : List LocationCfg
  microservices : Option (List Microservice) := none
deriving DecidableEq, Repr

/-- One `server ...;` line of an upstream block (generator lines 11-15):
the `weight=`, `max_fails=` and `fail_timeout=` clauses are appended
only when the field is truthy. -/
def genUpstreamServerLine (s : UServer) : String :=
  "    server " ++ s.address ++
  (if tN s.weight then " weight=" ++ toString (s.weight.getD 0) else "") ++
  (if tN s.maxFails then " max_fails=" ++ toString (s.maxFails.getD 0) else "") ++
  (if tS s.failTimeout then " fail_timeout=" ++ (s.failTimeout.getD "") else "") ++
  ";\n"

/-- One upstream block (generator lines 8-18). -/
def genUpstreamBlock (p : String × List UServer) : String :=
  "upstream " ++ p.1 ++ " \x7b\n" ++
  String.join (p.2.map genUpstreamServerLine) ++ "\x7d\n\n"

/-- The default CORS header values the generator falls back to
(`|| '...'`, lines 53-55 and 140-142).  `join(' ')` of an absent or empty
list is falsy, so the default also covers `some []`. -/
def corsOriginsText (o : Option (List String)) : String :=
  match o with
  | some l => let j := " ".intercalate l; if j = "" then "*" else j
  | none => "*"

/-- Fallback for CORS methods. -/
def corsMethodsText (o : Option (List String)) : String :=
  match o with
  | some l => let j := " ".intercalate l; if j = "" then "GET, POST, OPTIONS" else j
  | none => "GET, POST, OPTIONS"

/-- Fallback for CORS headers. -/
def corsHeadersText (o : Option (List String)) : String :=
  match o with
  | some l =>
    let j := " ".intercalate l
    if j = "" then
      "DNT,X-CustomHeader,Keep-Alive,User-Agent,X-Requested-With,If-Modified-Since,Cache-Control,Content-Type"
    else j
  | none =>
    "DNT,X-CustomHeader,Keep-Alive,User-Agent,X-Requested-With,If-Modified-Since,Cache-Control,Content-Type"

/-- The location object a microservice route is turned into and pushed
onto `config.locations` (generator lines 32-62). -/
def msToLocation (ms : Microservice) : LocationCfg :=
  { path := ms.path,
    proxyPass := some ("http://" ++ ms.upstream),
    extraDirectives := some (
      (if tS ms.rewrite then ["rewrite " ++ (ms.rewrite.getD "")] else []) ++
      (if tB ms.stripPath then ["rewrite ^/[^/]+/(.*) /$1 break"] else []) ++
      (match ms.methods with
       | some l => ["limit_except " ++ " ".intercalate l ++ " \x7b deny all; \x7d"]
       | none => []) ++
      (if (ms.cors.map (fun c => tB c.enabled)).getD false then
        ["add_header 'Access-Control-Allow-Origin' '" ++
           corsOriginsText ((ms.cors.getD {}).origins) ++ "'",
         "add_header 'Access-Control-Allow-Methods' '" ++
           corsMethodsText ((ms.cors.getD {}).methods) ++ "'",
         "add_header 'Access-Control-Allow-Headers' '" ++
           corsHeadersText ((ms.cors.getD {}).headers) ++ "'"] ++
        (if tB ((ms.cors.getD {}).credentials) then
          ["add_header 'Access-Control-Allow-Credentials' 'true'"] else [])
      else [])) }

/-- One location block (generator lines 67-165), clause groups in source
order: proxy, websocket, root, index, try_files, php, cache, cors, rate
limit, then the passthrough directives, each given its terminating
semicolon. -/
def genLocationBlock (loc : LocationCfg) : String :=
  "    location " ++ loc.path ++ " \x7b\n" ++
  (if tS loc.proxyPass then
    "        proxy_pass " ++ (loc.proxyPass.getD "") ++ ";\n" ++
    "        proxy_set_header Host $host;\n" ++
    "        proxy_set_header X-Real-IP $remote_addr;\n" ++
    "        proxy_set_header X-Forwarded-For $proxy_add_x_forwarded_for;\n" ++
    "        proxy_set_header X-Forwarded-Proto $scheme;\n"
  else "") ++
  (match loc.websocket with
   | some ws =>
     if tB ws.enabled then
       "        proxy_http_version 1.1;\n" ++
       "        proxy_set_header Upgrade $http_upgrade;\n" ++
       "        proxy_set_header Connection \"upgrade\";\n" ++
       (if tN ws.timeout then
         "        proxy_read_timeout " ++ toString (ws.timeout.getD 0) ++ "s;\n" else "") ++
       (if tN ws.keepaliveTimeout then
         "        proxy_send_timeout " ++ toString (ws.keepaliveTimeout.getD 0) ++ "s;\n" ++
         "        proxy_read_timeout " ++ toString (ws.keepaliveTimeout.getD 0) ++ "s;\n"
       else "")
     else ""
   | none => "") ++
  (if tS loc.root then "        root " ++ (loc.root.getD "") ++ ";\n" else "") ++
  (if tS loc.index then "        index " ++ (loc.index.getD "") ++ ";\n" else "") ++
  (if tS loc.try_files then "        try_files " ++ (loc.try_files.getD "") ++ ";\n" else "") ++
  (match loc.php with
   | some php =>
     if tB php.enabled then
       "        fastcgi_pass " ++
       (if tS php.socketPath then php.socketPath.getD "" else "unix:/var/run/php/php-fpm.sock") ++
       ";\n" ++
       "        fastcgi_index index.php;\n" ++
       "        include fastcgi_params;\n" ++
       (match php.extraParams with
        | some ps => String.join (ps.map (fun kv =>
            "        fastcgi_param " ++ kv.1 ++ " " ++ kv.2 ++ ";\n"))
        | none => "")
     else ""
   | none => "") ++
  (match loc.cache with
   | some cache =>
     if tB cache.enabled then
       "        proxy_cache_valid " ++
       (if tS cache.validTime then cache.validTime.getD "" else "60m") ++ ";\n" ++
       (match cache.keys with
        | some l => "        proxy_cache_key " ++ " ".intercalate l ++ ";\n"
        | none => "") ++
       (match cache.useStale with
        | some l => "        proxy_cache_use_stale " ++ " ".intercalate l ++ ";\n"
        | none => "") ++
       (if tN cache.minUses then
         "        proxy_cache_min_uses " ++ toString (cache.minUses.getD 0) ++ ";\n" else "") ++
       (match cache.bypass with
        | some l => "        proxy_cache_bypass " ++ " ".intercalate l ++ ";\n"
        | none => "") ++
       (match cache.noCache with
        | some l => "        proxy_no_cache " ++ " ".intercalate l ++ ";\n"
        | none => "") ++
       (match cache.methods with
        | some l => "        proxy_cache_methods " ++ " ".intercalate l ++ ";\n"
        | none => "")
     else ""
   | none => "") ++
  (match loc.cors with
   | some cors =>
     if tB cors.enabled then
       "        add_header 'Access-Control-Allow-Origin' '" ++ corsOriginsText cors.origins ++ "';\n" ++
       "        add_header 'Access-Control-Allow-Methods' '" ++ corsMethodsText cors.methods ++ "';\n" ++
       "        add_header 'Access-Control-Allow-Headers' '" ++ corsHeadersText cors.headers ++ "';\n" ++
       (if tB cors.credentials then
         "        add_header 'Access-Control-Allow-Credentials' 'true';\n" else "")
     else ""
   | none => "") ++
  (match loc.rateLimit with
   | some rl =>
     "        limit_req zone=one rate=" ++ jsShowS rl.rate ++
     (if tN rl.burstSize then
       " burst=" ++ toString (rl.burstSize.getD 0) ++
       (if tB rl.nodelay then " nodelay" else "")
     else "") ++ ";\n"
   | none => "") ++
  (match loc.extraDirectives with
   | some ds => String.join (ds.map (fun d => "        " ++ d ++ ";\n"))
   | none => "") ++
  "    \x7d\n"

/-- The HTTP-to-HTTPS redirect block (generator lines 22-28), emitted
exactly when `config.ssl?.forceRedirect` is truthy. -/
def genRedirectBlock (config : NginxConfig) : String :=
  "server \x7b\n    listen 80;\n    server_name " ++ config.serverName ++
  ";\n    return 301 https://$server_name$request_uri;\n\x7d\n\n"

/-- SSL directive group of the main server block (generator
lines 174-211). -/
def genSSLSection (ssl : SSLCfg) : String :=
  "\n    ssl_certificate " ++ jsShowS ssl.certificate ++
  ";\n    ssl_certificate_key " ++ jsShowS ssl.certificateKey ++ ";" ++
  (match ssl.protocols with
   | some l => "\n    ssl_protocols " ++ " ".intercalate l ++ ";"
   | none => "") ++
  (match ssl.ciphers with
   | some l => "\n    ssl_ciphers " ++ ":".intercalate l ++ ";"
   | none => "") ++
  (if tB ssl.preferServerCiphers then "\n    ssl_prefer_server_ciphers on;" else "") ++
  (if tS ssl.dhParam then "\n    ssl_dhparam " ++ (ssl.dhParam.getD "") ++ ";" else "") ++
  (if tB ssl.ocspStapling then "\n    ssl_stapling on;\n    ssl_stapling_verify on;" else "") ++
  (if tS ssl.sessionTimeout then "\n    ssl_session_timeout " ++ (ssl.sessionTimeout.getD "") ++ ";" else "") ++
  (if ssl.sessionTickets = some false then "\n    ssl_session_tickets off;" else "") ++
  (if (ssl.hsts.map (fun h => tB h.enabled)).getD false then
    let h := ssl.hsts.getD {}
    "\n    add_header Strict-Transport-Security \"max-age=" ++
    toString (if tN h.maxAge then h.maxAge.getD 0 else 31536000) ++
    (if tB h.includeSubdomains then "; includeSubDomains" else "") ++
    (if tB h.preload then "; preload" else "") ++ "\";"
  else "")

/-- Security-header group of the main server block (generator
lines 214-230). -/
def genSecuritySection (sec : SecurityCfg) : String :=
  (if tS sec.xFrameOptions then
    "\n    add_header X-Frame-Options \"" ++ (sec.xFrameOptions.getD "") ++ "\";" else "") ++
  (if tB sec.xContentTypeOptions then "\n    add_header X-Content-Type-Options \"nosniff\";" else "") ++
  (if tB sec.xXSSProtection then "\n    add_header X-XSS-Protection \"1; mode=block\";" else "") ++
  (if tS sec.referrerPolicy then
    "\n    add_header Referrer-Policy \"" ++ (sec.referrerPolicy.getD "") ++ "\";" else "") ++
  (match sec.contentSecurityPolicy with
   | some l => "\n    add_header Content-Security-Policy \"" ++ "; ".intercalate l ++ "\";"
   | none => "")

/-- The main server block (generator lines 169-246), rendered over the
given location list. -/
def genServerBlock (config : NginxConfig) (locs : List LocationCfg) : String :=
  "server \x7b\n    listen " ++ toString config.port ++
  (if config.ssl.isSome then " ssl" else "") ++
  ";\n    server_name " ++ config.serverName ++ ";\n" ++
  (match config.ssl with
   | some ssl => genSSLSection ssl
   | none => "") ++
  (match config.security with
   | some sec => genSecuritySection sec
   | none => "") ++
  (if tS config.clientMaxBodySize then
    "\n    client_max_body_size " ++ (config.clientMaxBodySize.getD "") ++ ";" else "") ++
  (if tB config.gzip then
    "\n    gzip on;" ++
    (match config.gzipTypes with
     | some l => "\n    gzip_types " ++ " ".intercalate l ++ ";"
     | none => "\n    gzip_types text/plain text/css application/json application/javascript text/xml application/xml application/xml+rss text/javascript;")
  else "") ++
  "\n\n" ++ "\n".intercalate (locs.map genLocationBlock) ++ "\x7d"

/-- Source `generateNginxConfig`: the generated text together with the
configuration as the call leaves it (line 62 pushes one location per
microservice onto the caller's `config.locations` before the location
blocks are rendered). -/
def generateNginxConfig (config : NginxConfig) : String × NginxConfig :=
  let upstreamsText :=
    match config.upstreams with
    | some pools => String.join (pools.map genUpstreamBlock)
    | none => ""
  let redirectText :=
    if (config.ssl.map (fun s => tB s.forceRedirect)).getD false then
      genRedirectBlock config
    else ""
  let locs2 :=
    match config.microservices with
    | some ms => config.locations ++ ms.map msToLocation
    | none => config.locations
  let config2 := { config with locations := locs2 }
  (upstreamsText ++ redirectText ++ genServerBlock config locs2, config2)

/-! ## Theorems -/

set_option maxRecDepth 10000

/-- C1: the parse-serialize-parse round trip claimed by the spec fails on
the code.  Two sibling directives named `_lua` parse into an array under
the reserved script-body key; the serializer then emits the stored values
as bare lines with no key and no semicolons, and reparsing yields the
empty tree: both directives are lost outright (keys and values, not
formatting). -/
theorem c1_roundtrip_loses_lua_directives :
    toJSON (chars "_lua a;\n_lua b;") false =
      .obj [(chars "_lua", .arr [.str (chars "a"), .str (chars "b")])] ∧
    toConf (.obj [(chars "_lua", .arr [.str (chars "a"), .str (chars "b")])]) =
      chars "a\nb\n" ∧
    toJSON (toConf (toJSON (chars "_lua a;\n_lua b;") false)) false = .obj [] ∧
    toJSON (toConf (toJSON (chars "_lua a;\n_lua b;") false)) false ≠
      toJSON (chars "_lua a;\n_lua b;") false := by
  refine ⟨by decide, by decide, by decide, by decide⟩

/-- C2: the universal collision-promotion claim fails on the code.  At a
reachable parent path it behaves as claimed — two same-key sibling
directives at the top level parse to a flat two-element list in source
order and a third appends, never nesting (first two conjuncts).  But
when the colliding directives sit inside a second same-named sibling
block, toJSON line 192 computes the new parent as
`parent + ('.' + length - 1)`: the additive chain concatenates first and
then coerces, appending the string "-0.8" instead of the numeric index
".1", so `resolveSet` fails for every directive of that block and both
colliding directives are silently dropped — the parsed tree holds an
empty object and no two-element list at the key (third conjunct). -/
theorem c2_collision_promotion_broken_in_sibling_blocks :
    (toJSON (chars "a 1;\na 2;") false =
      .obj [(chars "a", .arr [.str (chars "1"), .str (chars "2")])]) ∧
    (toJSON (chars "a 1;\na 2;\na 3;") false =
      .obj [(chars "a", .arr [.str (chars "1"), .str (chars "2"), .str (chars "3")])]) ∧
    (toJSON (chars "s \x7b\na 1;\n\x7d\ns \x7b\na 1;\na 2;\n\x7d") false =
      .obj [(chars "s", .arr [.obj [(chars "a", .str (chars "1"))], .obj []])]) := by
  refine ⟨by decide, by decide, by decide⟩

/-- C3: the tree `parse` returns for a root file whose only content is an
include directive is empty — the un-awaited async `handleInclude` has not
merged anything by the time `toJSON` returns — while the resolver's own
merge logic, applied to the two matched files' parse results in match
order, does produce the claimed two-element `server` list. -/
theorem c3_include_merge_not_awaited :
    toJSON (chars "include conf.d/*.conf;\n") true = .obj [] ∧
    includeMerge (.obj []) []
      [toJSON (chars "server \x7b\nlisten 80;\n\x7d") false,
       toJSON (chars "server \x7b\nlisten 81;\n\x7d") false] =
      .obj [(chars "server",
        .arr [.obj [(chars "listen", .str (chars "80"))],
              .obj [(chars "listen", .str (chars "81"))]])] := by
  refine ⟨by decide, by decide⟩

/-- C4: with zero glob matches the resolver's own logic throws
`IncludeResolutionError` (and is a silent no-op when include errors are
ignored), but the value `parse` synchronously returns for such an input
is a successful empty tree either way — the rejection happens in a
promise nobody awaits, so the caller of `parse` never observes it. -/
theorem c4_unresolved_include_unobservable :
    handleIncludeOutcome (.obj []) [] [] false = .error "IncludeResolutionError" ∧
    handleIncludeOutcome (.obj []) [] [] true = .ok (.obj []) ∧
    toJSON (chars "include missing/*.conf;") true = .obj [] := by
  refine ⟨rfl, rfl, by decide⟩

/-- C6 counterexample: the serializer emits keys verbatim — a tree whose
key holds the sentinel `!` is serialized with the sentinel intact and no
dot, refuting "Serialize unescapes every escaped key before
emission". -/
theorem c6_serializer_emits_sentinel :
    toConf (.obj [(chars "proxy!example", .str (chars "1"))]) =
      chars "proxy!example    1;\n" ∧
    '!' ∈ toConf (.obj [(chars "proxy!example", .str (chars "1"))]) ∧
    '.' ∉ toConf (.obj [(chars "proxy!example", .str (chars "1"))]) := by
  refine ⟨by decide, by decide, by decide⟩

/-- C6 as amended: unescaping happens when the tree is stored, not when
it is serialized — `resolveSet` applies the un-escaping to every path
component before writing, so a parsed dotted directive name is stored
with its dots restored and serialization shows the original name with no
sentinel; in general escaping then unescaping is the identity on any key
without a literal sentinel character. -/
theorem c6_keys_unescaped_at_store :
    toJSON (chars "proxy.example 1;") false =
      .obj [(chars "proxy.example", .str (chars "1"))] ∧
    toConf (.obj [(chars "proxy.example", .str (chars "1"))]) =
      chars "proxy.example    1;\n" ∧
    '.' ∈ toConf (.obj [(chars "proxy.example", .str (chars "1"))]) ∧
    '!' ∉ toConf (.obj [(chars "proxy.example", .str (chars "1"))]) ∧
    (∀ s : Str, '!' ∉ s → unescapeKey (safeKey s) = s) := by
  refine ⟨by decide, by decide, by decide, by decide, ?_⟩
  intro s h
  induction s with
  | nil => rfl
  | cons c rest ih =>
    have hc : ¬c = '!' := fun hh => h (by simp [hh])
    have hrest : '!' ∉ rest := fun hh => h (List.mem_cons_of_mem _ hh)
    have ih2 := ih hrest
    by_cases hd : c = '.'
    · simp only [unescapeKey, safeKey, List.map_cons] at ih2 ⊢
      simp [hd, ih2]
    · simp only [unescapeKey, safeKey, List.map_cons] at ih2 ⊢
      simp [hd, hc, ih2]

/-- Witness for C6's general conjunct at a concrete dotted key. -/
theorem c6_keys_unescaped_witness :
    unescapeKey (safeKey (chars "proxy.example")) = chars "proxy.example" :=
  c6_keys_unescaped_at_store.2.2.2.2 _ (by decide)

/-- C7: the spec's extraction-fidelity example, end to end through the
extractor's parser: domain, port 443, SSL present with both certificate
paths set and protocols and ciphers unset. -/
theorem c7_extraction_fidelity :
    convert (chars "server \x7b\n    server_name api.example.com;\n    listen 443 ssl;\n    ssl_certificate /etc/ssl/api.crt;\n    ssl_certificate_key /etc/ssl/api.key;\n\x7d") =
      .one { serverName := some (chars "api.example.com"),
             domain := some (chars "api.example.com"),
             port := some 443,
             ssl := some { certificate := some (chars "/etc/ssl/api.crt"),
                           certificateKey := some (chars "/etc/ssl/api.key"),
                           protocols := none, ciphers := none,
                           preferServerCiphers := none, dhParam := none,
                           ocspStapling := none, sessionTimeout := none },
             clientMaxBodySize := none, gzip := none, gzipTypes := none,
             security := none, locations := none } := by decide

/-- C8: the extractor drops a location block with an unknown directive
instead of preserving it — the server block's location is stored under
the key "location /api", which the extractor's lookup for the exact key
"location" misses, so the extracted schema has no locations at all; even
parseLocation itself keeps only `expires`/`add_header`/`access_log`
directives, so `proxy_read_timeout 90s` would not reach the passthrough
list; and a pathless `location` block makes extraction throw a
TypeError. -/
theorem c8_unknown_directive_dropped :
    convert (chars "server \x7b listen 80; location /api \x7b proxy_read_timeout 90s; \x7d \x7d") =
      .one { serverName := none, domain := none, port := some 80, ssl := none,
             clientMaxBodySize := none, gzip := none, gzipTypes := none,
             security := none, locations := none } ∧
    parseLocation (.obj [(chars "location", .str (chars "/api")),
                         (chars "_directives", .str (chars "proxy_read_timeout 90s"))]) =
      some { path := chars "/api", extraDirectives := none } ∧
    convert (chars "server \x7b listen 80; location \x7b root /w; \x7d \x7d") = .err := by
  refine ⟨by decide, by decide, by decide⟩

/-- Modelled from the spec: "an unconditional HTTP to HTTPS redirect
block if SSL forced-redirect is requested" — the request being a truthy
`forceRedirect` on a present SSL facet. -/
def specForceRedirect (cfg : NginxConfig) : Bool :=
  match cfg.ssl with
  | some s => tB s.forceRedirect
  | none => false

/-- Modelled from the spec: "upstream blocks first (one per named pool,
in the schema's insertion order, server entries in list order)". -/
def specUpstreamsText (cfg : NginxConfig) : String :=
  String.join ((cfg.upstreams.getD []).map genUpstreamBlock)

/-- Modelled from the spec: the redirect block appears exactly when the
forced redirect is requested. -/
def specRedirectText (cfg : NginxConfig) : String :=
  if specForceRedirect cfg then genRedirectBlock cfg else ""

/-- The path rules the single server block renders, in schema order, with
the generator's microservice-derived rules appended after them. -/
def specLocationList (cfg : NginxConfig) : List LocationCfg :=
  cfg.locations ++ (cfg.microservices.getD []).map msToLocation

/-- Modelled from the spec: "exactly one server block containing ... one
location block per path rule in schema order". -/
def specServerText (cfg : NginxConfig) : String :=
  genServerBlock cfg (specLocationList cfg)

/-- Everything the main server block emits before its location blocks:
listen and server_name, then the conditionally emitted SSL directives,
security headers, client body size limit and gzip directives, in that
fixed order. -/
def specServerHeaderText (cfg : NginxConfig) : String :=
  "server \x7b\n    listen " ++ toString cfg.port ++
  (if cfg.ssl.isSome then " ssl" else "") ++
  ";\n    server_name " ++ cfg.serverName ++ ";\n" ++
  (match cfg.ssl with
   | some ssl => genSSLSection ssl
   | none => "") ++
  (match cfg.security with
   | some sec => genSecuritySection sec
   | none => "") ++
  (if tS cfg.clientMaxBodySize then
    "\n    client_max_body_size " ++ (cfg.clientMaxBodySize.getD "") ++ ";" else "") ++
  (if tB cfg.gzip then
    "\n    gzip on;" ++
    (match cfg.gzipTypes with
     | some l => "\n    gzip_types " ++ " ".intercalate l ++ ";"
     | none => "\n    gzip_types text/plain text/css application/json application/javascript text/xml application/xml application/xml+rss text/javascript;")
  else "")

/-- The redirect block always has text (it opens with a fixed server
header). -/
theorem genRedirectBlock_ne_empty (cfg : NginxConfig) : genRedirectBlock cfg ≠ "" := by
  intro h
  have hlen := congrArg String.length h
  simp [genRedirectBlock, String.length_append] at hlen
  exact absurd hlen.1.1 (by decide)

/-- C9: the generated text is the upstream section, then the redirect
section, then the single main server block; the redirect section is
nonempty exactly when SSL forced-redirect is requested; the server block
is its header followed by the location blocks joined in order; the
location list is the schema's path rules in schema order (with
microservice-derived rules after them); and a server entry none of whose
optional fields is present gets a bare `server address;` line, the
`weight=`, `max_fails=`, `fail_timeout=` clauses being appended only for
present (truthy) fields. -/
theorem c9_generation_order (cfg : NginxConfig) (s : UServer) :
    (generateNginxConfig cfg).1 =
      specUpstreamsText cfg ++ specRedirectText cfg ++ specServerText cfg ∧
    (specRedirectText cfg ≠ "" ↔ specForceRedirect cfg = true) ∧
    specServerText cfg =
      specServerHeaderText cfg ++ "\n\n" ++
      "\n".intercalate ((specLocationList cfg).map genLocationBlock) ++ "\x7d" ∧
    specLocationList cfg =
      cfg.locations ++ (cfg.microservices.getD []).map msToLocation ∧
    (s.weight = none → s.maxFails = none → s.failTimeout = none →
      genUpstreamServerLine s = "    server " ++ s.address ++ ";\n") := by
  refine ⟨?_, ?_, rfl, rfl, ?_⟩
  · cases hu : cfg.upstreams <;> cases hm : cfg.microservices <;> cases hs : cfg.ssl <;>
      simp [generateNginxConfig, specUpstreamsText, specRedirectText, specServerText,
            specLocationList, specForceRedirect, genServerBlock, String.join, hu, hm, hs]
  · constructor
    · intro h
      by_contra hf
      have hfalse : specForceRedirect cfg = false := by
        cases hx : specForceRedirect cfg
        · rfl
        · exact absurd hx hf
      rw [specRedirectText, hfalse] at h
      simp at h
    · intro hf h
      rw [specRedirectText, hf] at h
      exact genRedirectBlock_ne_empty cfg (by simpa using h)
  · intro h1 h2 h3
    simp [genUpstreamServerLine, tN, tS, h1, h2, h3]

/-- Witness for C9 at a concrete schema and a concrete clause-free
upstream server entry. -/
theorem c9_generation_order_witness :
    genUpstreamServerLine { address := "10.0.0.2:8080" } =
      "    server 10.0.0.2:8080;\n" :=
  (c9_generation_order
    { domain := "example.com", serverName := "example.com", port := 80, locations := [] }
    { address := "10.0.0.2:8080" }).2.2.2.2 rfl rfl rfl

/-- Concrete schema carrying one microservice route, used to exhibit the
generator's mutation of its input. -/
def msMutationCfg : NginxConfig :=
  { domain := "d.example", serverName := "d.example", port := 80,
    locations := [{ path := "/" }],
    microservices := some [{ path := "/auth", upstream := "auth_service" }] }

/-- C10 counterexample: on a schema with one microservice the
configuration after the call differs from the input — line 62 of the
generator pushes a derived location onto the caller's `locations`
list. -/
theorem c10_generator_mutates_input :
    (generateNginxConfig msMutationCfg).2 ≠ msMutationCfg ∧
    (generateNginxConfig msMutationCfg).2.locations =
      msMutationCfg.locations ++
        [msToLocation { path := "/auth", upstream := "auth_service" }] := by
  refine ⟨by decide, rfl⟩

/-- C10 as amended: the generator's only effect on the input schema is to
append one derived location per microservice route to its `locations`
list; every other field is unchanged, and a schema with no microservices
(absent key or empty list) comes back exactly as it went in. -/
theorem c10_mutation_only_locations (cfg : NginxConfig) :
    (generateNginxConfig cfg).2 =
      { cfg with locations := cfg.locations ++ (cfg.microservices.getD []).map msToLocation } ∧
    (cfg.microservices = none → (generateNginxConfig cfg).2 = cfg) ∧
    (cfg.microservices = some [] → (generateNginxConfig cfg).2 = cfg) := by
  refine ⟨?_, ?_, ?_⟩
  · cases hm : cfg.microservices <;> simp [generateNginxConfig, hm]
  · intro hm
    cases cfg
    simp_all [generateNginxConfig]
  · intro hm
    cases cfg
    simp_all [generateNginxConfig]

/-- Witness for C10's amended claim on a concrete microservice-free
schema. -/
theorem c10_mutation_only_locations_witness :
    (generateNginxConfig
      { domain := "d.example", serverName := "d.example", port := 80,
        locations := [{ path := "/" }] }).2 =
      { domain := "d.example", serverName := "d.example", port := 80,
        locations := [{ path := "/" }] } :=
  (c10_mutation_only_locations _).2.1 rfl

end NginxApi
